import Mathlib

/-!
A shallow embedding of the `align-rs` repository (src/msa.rs, src/reader.rs)
and proofs about its specified behaviour.

Conventions of the embedding:
* A text stream is a `List String` of lines, each line carrying its trailing
  newline character (as produced by `BufRead::read_line`); end of input is the
  empty tail of the list.
* Rust `String` values are Lean `String`s; lengths are counted in characters,
  which coincides with Rust byte lengths on the ASCII data this format carries.
* Fallible Rust code returns `Except`; a Rust `panic!` / `.expect(..)` /
  `.unwrap()` on `None` is the distinguished outcome `PResult.panics`, and an
  infinite loop is `PResult.diverges`.
* String primitives used by the source (`starts_with`, `split(' ')`,
  `trim_start_matches` / `trim_end_matches`, substring `find`) are re-implemented
  on `List Char` so that every definition evaluates by kernel reduction.
-/

/-- Rust `str::starts_with`: `listStartsWith s p` is true when `p` is a prefix of `s`. -/
def listStartsWith : List Char → List Char → Bool
  | _, [] => true
  | [], _ :: _ => false
  | a :: as, b :: bs => a == b && listStartsWith as bs

/-- Rust `str::starts_with` on strings. -/
def strStartsWith (s p : String) : Bool :=
  listStartsWith s.toList p.toList

/-- Rust `str::trim_start_matches(c)`: strip every leading occurrence of `c`. -/
def trimCharStart (c : Char) (s : String) : String :=
  ⟨s.toList.dropWhile (· == c)⟩

/-- Rust `str::trim_end_matches(c)`: strip every trailing occurrence of `c`. -/
def trimCharEnd (c : Char) (s : String) : String :=
  ⟨(s.toList.reverse.dropWhile (· == c)).reverse⟩

/-- Rust `str::split(' ')` on a char list: split at every single space, keeping
empty pieces between consecutive spaces (so `"a  b"` gives `["a", "", "b"]`). -/
def splitSpace : List Char → List (List Char)
  | [] => [[]]
  | c :: rest =>
    let r := splitSpace rest
    if c == ' ' then [] :: r
    else
      match r with
      | h :: t => (c :: h) :: t
      | [] => [[c]]

/-- Rust `buf.split(' ').collect::<Vec<&str>>()`. -/
def splitFields (s : String) : List String :=
  (splitSpace s.toList).map (fun l => ⟨l⟩)

/-- Character slice `s[a..b]` (indices in characters). -/
def strSlice (s : String) (a b : Nat) : String :=
  ⟨(s.toList.drop a).take (b - a)⟩

/-- Rust `&s[n..]` (index in characters). -/
def strDrop (s : String) (n : Nat) : String :=
  ⟨s.toList.drop n⟩

/-- Helper for `strFind`: first index at or after position `i` where `ps` occurs. -/
def findSubAux (ps : List Char) : List Char → Nat → Option Nat
  | [], i => if listStartsWith [] ps then some i else none
  | h :: t, i =>
    if listStartsWith (h :: t) ps then some i else findSubAux ps t (i + 1)

/-- Rust `str::find(pat)`: index of the first occurrence of `pat` in `hay`. -/
def strFind (hay pat : String) : Option Nat :=
  findSubAux pat.toList hay.toList 0

/-- Rust `Vec::<&str>::join(",")` as used for the known-header list. -/
def joinComma : List String → String
  | [] => ""
  | [s] => s
  | s :: rest => s ++ "," ++ joinComma rest

/-- A parsed alignment record, shallow embedding of the `noodles::fasta::Record`
values built by `reader.rs` (`Definition::new(id, None)` plus a byte sequence):
only the name and the sequence content are ever consulted by this repository. -/
structure Record where
  id : String
  seq : String
deriving DecidableEq

/-- `MSA` from src/msa.rs: records plus two string-keyed maps. The Rust
`HashMap<String, String>` fields are embedded as association lists with unique
keys, which is all their uses (insert / append / lookup) observe. -/
structure MSA where
  records : List Record
  annotations : List (String × String)
  column_annotations : List (String × String)
deriving DecidableEq

/-- `MSA::default()`: empty records and empty maps. -/
def emptyMSA : MSA :=
  { records := [], annotations := [], column_annotations := [] }

/-- `MSA::is_empty` from src/msa.rs. -/
def MSA.is_empty (m : MSA) : Bool :=
  m.records.isEmpty

/-- `MSA::alignment_len` from src/msa.rs: length of the first record, 0 if empty. -/
def MSA.alignment_len (m : MSA) : Nat :=
  match m.records with
  | [] => 0
  | r :: _ => r.seq.length

/-- `MSA::get_ids` from src/msa.rs: the record names in order. -/
def MSA.get_ids (m : MSA) : List String :=
  m.records.map (·.id)

/-- `MSA::push` from src/msa.rs lines 50-65. The Rust method mutates `&mut self`
and returns `Result<(), String>`; here it returns the result code together with
the state after the call. In reader.rs this operation is invoked under the name
`add_record`, whose `expect` message describes exactly these two checks. -/
def MSA.push (m : MSA) (r : Record) : Except String Unit × MSA :=
  if !m.is_empty && (r.seq.length != m.alignment_len) then
    (Except.error ("New sequence is not of length " ++ toString m.alignment_len), m)
  else if !m.is_empty && m.get_ids.contains r.id then
    (Except.error ("New sequence have same id " ++ r.id ++
      " which is the same as an MSA sequence"), m)
  else
    (Except.ok (), { m with records := m.records ++ [r] })

/-- Association-list upsert with last-write-wins semantics. -/
def upsertSet : List (String × String) → String → String → List (String × String)
  | [], k, v => [(k, v)]
  | (k1, v1) :: t, k, v =>
    if k1 == k then (k, v) :: t else (k1, v1) :: upsertSet t k v

/-- Association-list append-to-value, creating the entry on first use. -/
def upsertAppend : List (String × String) → String → String → List (String × String)
  | [], k, v => [(k, v)]
  | (k1, v1) :: t, k, v =>
    if k1 == k then (k1, v1 ++ v) :: t else (k1, v1) :: upsertAppend t k v

/-- Association-list lookup, the read counterpart of the two upserts. -/
def lookupA : List (String × String) → String → Option String
  | [], _ => none
  | (k, v) :: t, k1 => if k == k1 then some v else lookupA t k1

/-- Modelled from the spec: `add_annotation`, called by reader.rs but absent
from src/msa.rs. Spec section 4.1, `set_whole_annotation(name, value)`:
last-write-wins upsert into `annotations`. -/
def putAnnot (m : MSA) (k v : String) : MSA :=
  { m with annotations := upsertSet m.annotations k v }

/-- Modelled from the spec: `add_column_annotation`, called by reader.rs but
absent from src/msa.rs. Spec section 4.1, `append_column_annotation(name,
fragment)`: concatenates `fragment` onto the named `column_annotations` entry,
creating it empty on first use. -/
def appendColAnnot (m : MSA) (k v : String) : MSA :=
  { m with column_annotations := upsertAppend m.column_annotations k v }

deriving instance DecidableEq for Except

/-- The outcome of one call of `read_clustal`: normal return of `Ok`, return of
`Err`, a Rust panic, or an infinite loop. -/
inductive PResult where
  | ok (msa : MSA)
  | err (e : String)
  | panics (msg : String)
  | diverges
deriving DecidableEq

/-- `known_header` from src/reader.rs line 42. -/
def knownHeader : List String :=
  ["CLUSTAL", "PROBCONS", "MUSCLE", "MSAPROBS", "Kalign"]

/-- The error string built at src/reader.rs lines 48-52:
`format!("{} is not a known CLUSTAL header: {}", header, known_header.join(","))`. -/
def headerErr (h : String) : String :=
  h ++ " is not a known CLUSTAL header: " ++ joinComma knownHeader

/-- Greedy repetition `(?:\.\d+)+` of the version regex, with fuel (each
successful step consumes at least two characters, so `cs.length` fuel is
always enough): consume as many `.` + digit-run groups as possible, returning
the consumed characters and the rest. -/
def munchGroupsF : Nat → List Char → List Char × List Char
  | 0, cs => ([], cs)
  | Nat.succ fuel, cs =>
    match cs with
    | '.' :: rest =>
      let ds := rest.takeWhile (·.isDigit)
      if ds.isEmpty then ([], cs)
      else
        let (more, r) := munchGroupsF fuel (rest.dropWhile (·.isDigit))
        (('.' :: ds) ++ more, r)
    | _ => ([], cs)

/-- Greedy repetition `(?:\.\d+)+`, fuelled by the input length. -/
def munchGroups (cs : List Char) : List Char × List Char :=
  munchGroupsF cs.length cs

/-- Try to match the version regex `\d+(?:\.\d+)+` anchored at the head of
`cs`: a maximal digit run, then at least one `.` + digit-run group (maximal
munch is exact here because a digit run is always ended by the non-digit that
the following `.` must be). -/
def matchAt (cs : List Char) : Option (List Char) :=
  let ds := cs.takeWhile (·.isDigit)
  if ds.isEmpty then none
  else
    let (g, _) := munchGroups (cs.dropWhile (·.isDigit))
    if g.isEmpty then none else some (ds ++ g)

/-- Leftmost-first regex search: try `matchAt` at every position from the left
and return the first success. -/
def findVersionAux : List Char → Option String
  | [] => none
  | c :: rest =>
    match matchAt (c :: rest) with
    | some m => some ⟨m⟩
    | none => findVersionAux rest

/-- src/reader.rs lines 57-58: first match of `Regex::new(r"(\d+(?:\.\d+)+)")`
in the header line (capture group 1 is the whole match). -/
def findVersion (s : String) : Option String :=
  findVersionAux s.toList

/-- src/reader.rs lines 42-54: `if let Some(header) = known_header.into_iter().next()`
inspects only the first element of `known_header`; on a prefix match the matched
token is stored as the `program` annotation, otherwise the function returns the
`headerErr` message. -/
def headerStep (buf : String) : Except String MSA :=
  match knownHeader.head? with
  | some header =>
    if strStartsWith buf header then
      Except.ok (putAnnot emptyMSA "program" header)
    else
      Except.error (headerErr header)
  | none => Except.ok emptyMSA

/-- src/reader.rs lines 57-60: store the first version match, if any. -/
def versionStep (m : MSA) (buf : String) : MSA :=
  match findVersion buf with
  | some v => putAnnot m "version" v
  | none => m

/-- src/reader.rs line 77: `buf.trim_start_matches('\n').trim_end_matches('\n')`. -/
def trimNl (s : String) : String :=
  trimCharEnd '\n' (trimCharStart '\n' s)

/-- src/reader.rs line 65: `buf.trim_start_matches(' ').trim_end_matches(' ') == "\n"`. -/
def isBlankish (buf : String) : Bool :=
  trimCharEnd ' ' (trimCharStart ' ' buf) == "\n"

/-- src/reader.rs lines 63-67: the blank-skipping `while` loop. `read_line`
appends to `buf` without clearing it, so the loop exits as soon as the
accumulated buffer is no longer a single bare newline; at end of input
`read_line` appends nothing and the condition never changes, so the loop
spins forever (`none`). -/
def skipBlanks (buf : String) : List String → Option (List String)
  | [] => if isBlankish buf then none else some []
  | l :: r => if isBlankish buf then skipBlanks (buf ++ l) r else some (l :: r)

/-- Panic message of `Option::unwrap` on `None` (src/reader.rs lines 76 and 89,
`buf.chars().nth(0).unwrap()` with an empty buffer at end of input). -/
def unwrapMsg : String :=
  "called Option::unwrap on a None value"

/-- Panic message of the `expect` at src/reader.rs line 88. -/
def expectPushMsg : String :=
  "sequence should not already exists and should have the same length as existing sequences"

/-- Panic message of an out-of-bounds `fields[1]` index at src/reader.rs line 82. -/
def indexMsg : String :=
  "index out of bounds"

/-- src/reader.rs lines 70-98, the block-iteration `loop`. Each iteration
clears `buf`, reads one line and re-initializes `start = 0; end = 0`. A line
whose first character is not a space and whose newline-trimmed content is
non-empty is a sequence line: it is split at single spaces, the window of
`fields[1]` inside the raw line is computed (into locals that no later
iteration can see), and `add_record` (= `MSA::push`) is called under `expect`.
A line whose first character is not a space but whose trimmed content is empty
(a bare newline) falls into the column-annotation branch, which slices
`buf[start..end]` with the still-zero window, appending the empty string under
the running index. A line starting with a space breaks the loop, after which
the function returns `Ok(msa)`. At end of input `buf` stays empty and
`buf.chars().nth(0).unwrap()` panics. -/
def mainLoop (idx : Nat) (msa : MSA) : List String → PResult
  | [] => PResult.panics unwrapMsg
  | buf :: rest =>
    match buf.toList.head? with
    | none => PResult.panics unwrapMsg
    | some c0 =>
      if (c0 != ' ') && (trimNl buf != "") then
        match splitFields (trimCharEnd ' ' buf) with
        | f0 :: f1 :: _ =>
          let start := f0.length + (strFind (strDrop buf f0.length) f1).getD 0
          let stop := start + f1.length
          let _window := (start, stop)
          match MSA.push msa { id := f0, seq := f1 } with
          | (Except.error _, _) => PResult.panics expectPushMsg
          | (Except.ok _, msa1) => mainLoop (idx + 1) msa1 rest
        | _ => PResult.panics indexMsg
      else if c0 != ' ' then
        mainLoop (idx + 1) (appendColAnnot msa (toString idx) (strSlice buf 0 0)) rest
      else
        PResult.ok msa

/-- Everything after the header phase of `read_clustal`: skip the blank lines
following the header, then iterate over the remaining lines with the consensus
index starting at 1. -/
def afterHeaderPhase (m : MSA) (rest : List String) : PResult :=
  match skipBlanks (rest.headD "") rest.tail with
  | none => PResult.diverges
  | some rest2 => mainLoop 1 m rest2

/-- `read_clustal` from src/reader.rs lines 28-101, over a list of input lines. -/
def readClustal (lines : List String) : PResult :=
  let buf := lines.headD ""
  match headerStep buf with
  | Except.error e => PResult.err e
  | Except.ok m => afterHeaderPhase (versionStep m buf) lines.tail

/-! ### Concrete inputs used by the claim theorems -/

/-- A header using the MUSCLE token, which the known-header list declares valid. -/
def c1Input : List String :=
  ["MUSCLE (3.8.31) multiple sequence alignment\n"]

/-- Two sequence lines followed by a consensus line whose marks sit under the
residue columns, as in the consensus-alignment test of the spec. -/
def c2Input : List String :=
  ["CLUSTAL W (1.81) multiple sequence alignment\n", "\n", "\n",
   "id1   ACGT\n", "id2   TGCA\n", "        **\n"]

/-- The alignment actually produced for `c2Input`: the consensus line broke the
loop before anything was appended, and the multi-space field split left every
stored fragment empty. -/
def c2Expected : MSA :=
  { records := [{ id := "id1", seq := "" }, { id := "id2", seq := "" }]
    annotations := [("program", "CLUSTAL"), ("version", "1.81")]
    column_annotations := [] }

/-- Two width-consistent blocks carrying the same identifier. -/
def c3Input : List String :=
  ["CLUSTAL W (1.81) multiple sequence alignment\n", "\n", "\n",
   "id1 ACGT\n", "\n", "id1 TTTT\n"]

/-- A fully well-formed input (header, blank separators, one block) that simply
ends: the next `read_line` leaves the buffer empty. -/
def c4Input : List String :=
  ["CLUSTAL W (1.81) multiple sequence alignment\n", "\n", "\n", "id1 ACGT\n"]

/-- One block, then a blank line, then a whitespace line that stops the loop. -/
def c5Input : List String :=
  ["CLUSTAL W (1.81) multiple sequence alignment\n", "\n", "\n",
   "id1 ACGT\n", "\n", "   \n"]

/-- The alignment actually produced for `c5Input`: the blank line created the
column-annotation entry keyed by the running consensus index. -/
def c5Expected : MSA :=
  { records := [{ id := "id1", seq := "ACGT\n" }]
    annotations := [("program", "CLUSTAL"), ("version", "1.81")]
    column_annotations := [("2", "")] }

/-- A second sequence line whose fragment width disagrees with the first. -/
def c7Input : List String :=
  ["CLUSTAL W (1.81) multiple sequence alignment\n", "\n", "\n",
   "id1 ACGT\n", "id2 TG\n"]

/-- A one-record alignment used to exercise `MSA::push` failures. -/
def msaA : MSA :=
  { records := [{ id := "id1", seq := "ACGT\n" }]
    annotations := []
    column_annotations := [] }

/-- The accepted header line of the running example, carrying version 1.81. -/
def hdrLine : String :=
  "CLUSTAL W (1.81) multiple sequence alignment\n"

/-! ### Claim theorems -/

/-- Claim C1. The claim says every first line starting with any of the five
recognized tokens is accepted, with that token stored as the program
annotation. The code only ever tests the first element of `known_header`
(`into_iter().next()`), so a MUSCLE-headed file is rejected even though MUSCLE
is in the known list and even appears in the error message; the claim fails on
the code, and the error message contradicts the check, so this is a code bug.
This theorem evaluates the embedded code at the failing input. -/
theorem c1_known_token_rejected : "MUSCLE" ∈ knownHeader ∧
    readClustal c1Input = PResult.err (headerErr "CLUSTAL") := by
  decide

/-- Claim C2. The claim says the consensus line of a block is recognized and
the slice of it at the residue window of the last sequence line is appended to the
column annotations. In the code a line starting with whitespace falls into the
final `else` branch, which breaks the loop: parsing stops and nothing is
appended (the `[start, end)` window is also re-initialized to zero on every
iteration, so it could never reach a later line). Evaluating the embedded
code at the consensus example given in the spec yields an alignment whose column
annotations are empty. -/
theorem c2_consensus_line_dropped :
    readClustal c2Input = PResult.ok c2Expected ∧ c2Expected.column_annotations = [] := by
  decide

/-- Claim C3, counterexample. Parsing two width-consistent blocks that carry
the same identifier does not yield a stitched record with sequence
`ACGTTTTT`: the second `add_record` call hits the duplicate-id rejection of
`MSA::push` and the surrounding `expect` panics. -/
theorem c3_stitching_cex : readClustal c3Input = PResult.panics expectPushMsg := by
  decide

/-- Claim C3, amended: a fragment whose identifier already names a record is
never appended to it; when its width matches the alignment, `MSA::push`
rejects it with the duplicate-id error and leaves the alignment unchanged. -/
theorem c3_duplicate_id_rejected (m : MSA) (r : Record)
    (hne : m.is_empty = false)
    (hlen : (r.seq.length != m.alignment_len) = false)
    (hdup : m.get_ids.contains r.id = true) :
    m.push r = (Except.error ("New sequence have same id " ++ r.id ++
      " which is the same as an MSA sequence"), m) := by
  have hmem : r.id ∈ m.get_ids := by simpa using hdup
  simp [MSA.push, hne, hlen, hmem]

/-- Witness for the amended claim C3 at a concrete alignment and record. -/
theorem c3_duplicate_id_rejected_witness :
    msaA.push { id := "id1", seq := "TTTT\n" } =
      (Except.error ("New sequence have same id " ++ "id1" ++
        " which is the same as an MSA sequence"), msaA) :=
  c3_duplicate_id_rejected msaA { id := "id1", seq := "TTTT\n" }
    (by decide) (by decide) (by decide)

/-- Claim C4. The claim says a well-formed input ending at end of input makes
`read_clustal` return `Ok` with the accumulated alignment, without panicking.
In the code the only way out of the block loop is a line starting with a
space; at end of input `read_line` leaves the cleared buffer empty and
`buf.chars().nth(0).unwrap()` panics. The claim matches the stated intent
of the spec (end of input transitions to Done), so this is a code bug; this
theorem evaluates the embedded code at the failing input. -/
theorem c4_eof_panics : readClustal c4Input = PResult.panics unwrapMsg := by
  decide

/-- Claim C5, counterexample. A blank line does not leave the alignment
unchanged: it falls into the column-annotation branch (its first character,
the newline, is not a space while its trimmed content is empty), which
creates the entry keyed by the running consensus index. -/
theorem c5_blank_line_cex :
    readClustal c5Input = PResult.ok c5Expected ∧
      lookupA c5Expected.column_annotations "2" = some "" := by
  decide

/-- Claim C5, amended: a blank line adds no record and changes no
whole-alignment annotation, but it does create (or extend by the empty slice
`buf[0..0]`) the column-annotation entry keyed by the running consensus
index, and advances that index. -/
theorem c5_blank_line_effect (idx : Nat) (m : MSA) (line : String)
    (rest : List String) (c0 : Char)
    (h1 : line.toList.head? = some c0)
    (h2 : (c0 != ' ') = true)
    (h3 : trimNl line = "") :
    mainLoop idx m (line :: rest)
      = mainLoop (idx + 1) (appendColAnnot m (toString idx) (strSlice line 0 0)) rest
    ∧ (appendColAnnot m (toString idx) (strSlice line 0 0)).records = m.records
    ∧ (appendColAnnot m (toString idx) (strSlice line 0 0)).annotations = m.annotations := by
  refine ⟨?_, rfl, rfl⟩
  have h1x : line.data.head? = some c0 := h1
  have h2x : ¬(c0 = ' ') := by simpa using h2
  simp [mainLoop, h1x, h2x, h3]

/-- Witness for the amended claim C5 on a bare newline line. -/
theorem c5_blank_line_effect_witness :
    mainLoop 1 emptyMSA ["\n"]
      = mainLoop 2 (appendColAnnot emptyMSA (toString 1) (strSlice "\n" 0 0)) []
    ∧ (appendColAnnot emptyMSA (toString 1) (strSlice "\n" 0 0)).records = emptyMSA.records
    ∧ (appendColAnnot emptyMSA (toString 1) (strSlice "\n" 0 0)).annotations
        = emptyMSA.annotations :=
  c5_blank_line_effect 1 emptyMSA "\n" [] '\n' (by decide) (by decide) (by decide)

/-- Claim C6. `MSA::push` preserves the alignment invariants: from a state in
which every record has length `alignment_len()` and ids are pairwise
distinct, a successful push reaches a state with the same two properties. -/
theorem c6_push_preserves_invariants (m : MSA) (r : Record)
    (hu : ∀ x ∈ m.records, x.seq.length = m.alignment_len)
    (hn : m.get_ids.Nodup)
    (hok : (m.push r).1 = Except.ok ()) :
    (∀ x ∈ (m.push r).2.records, x.seq.length = (m.push r).2.alignment_len)
      ∧ (m.push r).2.get_ids.Nodup := by
  unfold MSA.push at hok ⊢
  by_cases hc1 : (!m.is_empty && (r.seq.length != m.alignment_len)) = true
  · rw [if_pos hc1] at hok
    simp at hok
  · by_cases hc2 : (!m.is_empty && m.get_ids.contains r.id) = true
    · rw [if_neg hc1, if_pos hc2] at hok
      simp at hok
    · rw [if_neg hc1, if_neg hc2]
      dsimp only
      cases hrec : m.records with
      | nil =>
        constructor
        · intro x hx
          simp at hx
          simp [hx, MSA.alignment_len]
        · simp [MSA.get_ids]
      | cons a t =>
        have hne : m.is_empty = false := by simp [MSA.is_empty, hrec]
        have hlen : r.seq.length = m.alignment_len := by
          simpa [hne] using hc1
        have hnotmem : r.id ∉ m.get_ids := by
          simpa [hne] using hc2
        have halen : MSA.alignment_len { m with records := a :: t ++ [r] }
            = m.alignment_len := by
          simp [MSA.alignment_len, hrec]
        constructor
        · intro x hx
          rw [halen]
          have hx2 : x ∈ m.records ++ [r] := by simpa [hrec] using hx
          rcases List.mem_append.mp hx2 with hx1 | hx1
          · exact hu x hx1
          · simp at hx1
            rw [hx1]
            exact hlen
        · have hids : MSA.get_ids { m with records := a :: t ++ [r] }
              = m.get_ids ++ [r.id] := by
            simp [MSA.get_ids, hrec]
          rw [hids, List.nodup_append]
          refine ⟨hn, List.nodup_singleton _, ?_⟩
          intro b hb hbr
          simp at hbr
          rw [hbr] at hb
          exact hnotmem hb

/-- Witness for claim C6: pushing a fresh, same-length record onto a concrete
one-record alignment preserves both invariants. -/
theorem c6_push_preserves_invariants_witness :
    (∀ x ∈ (msaA.push { id := "id2", seq := "TGCA\n" }).2.records,
      x.seq.length = (msaA.push { id := "id2", seq := "TGCA\n" }).2.alignment_len)
    ∧ (msaA.push { id := "id2", seq := "TGCA\n" }).2.get_ids.Nodup :=
  c6_push_preserves_invariants msaA { id := "id2", seq := "TGCA\n" }
    (by decide) (by decide) (by decide)

/-- Claim C7, counterexample. A fragment whose width disagrees with the
established column count makes `MSA::push` fail, but `read_clustal` does not
return that failure to its caller: the `expect` around `add_record` turns it
into a panic. -/
theorem c7_length_mismatch_cex : readClustal c7Input = PResult.panics expectPushMsg := by
  decide

/-- Claim C7, amended: a push failure during block iteration aborts parsing
immediately — the failing line is not retried or skipped and no further line
is consumed — but the failure surfaces as the `expect` panic rather than as a
returned error value. -/
theorem c7_push_failure_aborts (idx : Nat) (m : MSA) (buf : String)
    (rest : List String) (c0 : Char) (f0 f1 : String) (fs : List String) (e : String)
    (h1 : buf.toList.head? = some c0)
    (h2 : (c0 != ' ') = true)
    (h3 : (trimNl buf != "") = true)
    (h4 : splitFields (trimCharEnd ' ' buf) = f0 :: f1 :: fs)
    (h5 : (m.push { id := f0, seq := f1 }).1 = Except.error e) :
    mainLoop idx m (buf :: rest) = PResult.panics expectPushMsg := by
  rcases hp : m.push { id := f0, seq := f1 } with ⟨res, m2⟩
  rw [hp] at h5
  simp at h5
  subst h5
  have h1x : buf.data.head? = some c0 := h1
  have h2x : ¬(c0 = ' ') := by simpa using h2
  have h3x : ¬(trimNl buf = "") := by simpa using h3
  simp [mainLoop, h1x, h2x, h3x, h4, hp]

/-- Witness for the amended claim C7 at a concrete mismatching line. -/
theorem c7_push_failure_aborts_witness :
    mainLoop 1 msaA ["id2 TG\n"] = PResult.panics expectPushMsg :=
  c7_push_failure_aborts 1 msaA "id2 TG\n" [] 'i' "id2" "TG\n" []
    "New sequence is not of length 5"
    (by decide) (by decide) (by decide) (by decide) (by decide)

/-- Claim C8. A first line starting with none of the recognized program tokens
makes `read_clustal` return the unrecognized-header error — whose message
enumerates the accepted signatures, by definition of `headerErr` — whatever
the subsequent lines are, and no alignment value is produced. -/
theorem c8_header_rejected (l : String) (rest : List String)
    (h : knownHeader.all (fun t => !(strStartsWith l t)) = true) :
    readClustal (l :: rest) = PResult.err (headerErr "CLUSTAL") := by
  have hc : strStartsWith l "CLUSTAL" = false := by
    simp [knownHeader] at h
    exact h.1
  simp [readClustal, headerStep, knownHeader, hc]

/-- Witness for claim C8 at a concrete unrecognized first line. -/
theorem c8_header_rejected_witness :
    readClustal ["FOOBAR alignment\n"] = PResult.err (headerErr "CLUSTAL") :=
  c8_header_rejected "FOOBAR alignment\n" [] (by decide)

/-- Claim C9. On an accepted header line, the header phase succeeds with the
program annotation set, the `version` annotation equals exactly the first
match of the version pattern (digits followed by one or more dot-digit
groups) when one exists and is absent otherwise, and parsing proceeds to the
block phase in either case. -/
theorem c9_version_extraction (buf : String)
    (h : strStartsWith buf "CLUSTAL" = true) :
    headerStep buf = Except.ok (putAnnot emptyMSA "program" "CLUSTAL")
    ∧ lookupA (versionStep (putAnnot emptyMSA "program" "CLUSTAL") buf).annotations
        "version" = findVersion buf
    ∧ ∀ rest, readClustal (buf :: rest)
        = afterHeaderPhase (versionStep (putAnnot emptyMSA "program" "CLUSTAL") buf) rest := by
  have hstep : headerStep buf = Except.ok (putAnnot emptyMSA "program" "CLUSTAL") := by
    simp [headerStep, knownHeader, h]
  refine ⟨hstep, ?_, ?_⟩
  · cases hv : findVersion buf with
    | none =>
      simp [versionStep, hv]
      decide
    | some v =>
      simp [versionStep, hv, putAnnot, emptyMSA, upsertSet, lookupA]
  · intro rest
    simp [readClustal, hstep]

/-- Witness for claim C9 at the running example header, whose first version
match is 1.81. -/
theorem c9_version_extraction_witness :
    lookupA (versionStep (putAnnot emptyMSA "program" "CLUSTAL") hdrLine).annotations
        "version" = findVersion hdrLine
    ∧ findVersion hdrLine = some "1.81" :=
  ⟨(c9_version_extraction hdrLine (by decide)).2.1, by decide⟩

/-- Claim C10. `MSA::push` is atomic on failure: whenever it returns an error
(length mismatch against a non-empty alignment, or a duplicate id), the
alignment after the call is exactly the alignment before it. -/
theorem c10_push_atomic_on_failure (m : MSA) (r : Record) (e : String)
    (h : (m.push r).1 = Except.error e) :
    (m.push r).2 = m := by
  unfold MSA.push at h ⊢
  by_cases hc1 : (!m.is_empty && (r.seq.length != m.alignment_len)) = true
  · rw [if_pos hc1]
  · by_cases hc2 : (!m.is_empty && m.get_ids.contains r.id) = true
    · rw [if_neg hc1, if_pos hc2]
    · rw [if_neg hc1, if_neg hc2] at h
      simp at h

/-- Witness for claim C10: a duplicate-id push fails and leaves the concrete
alignment untouched. -/
theorem c10_push_atomic_on_failure_witness :
    (msaA.push { id := "id1", seq := "ACGT\n" }).2 = msaA :=
  c10_push_atomic_on_failure msaA { id := "id1", seq := "ACGT\n" }
    ("New sequence have same id " ++ "id1" ++ " which is the same as an MSA sequence")
    (by decide)
